import Mathlib

/-! Social Stable Coin: the claim ledger of `src/app.js`.

A shallow embedding of the reward-relevant part of the class `SocialStableCoin`
(`src/app.js`): the persisted record `this.data`, the tier functions, `claim`,
`checkStreak`, `saveAddress`, the bonus of `shareOnSocial` and `loadData`.

Modelling conventions.

* `this.data` is the record `LedgerState`; a method that mutates `this.data`
  becomes a function returning the record after the call, paired with the
  message the method shows (its only other observable result).
* A JavaScript number is an integer-valued double, held as an `Int`. The
  additions of the code (`++`, `+=`) are `jsAdd`: the exact sum rounded to the
  nearest double, ties to even, so they are exact up to `2^53` in magnitude and
  rounded beyond. Numbers with a fraction, `NaN` and the infinities (sums of
  magnitude `2^1024` or more) are outside the model.
* `saveData()` writes the record to `localStorage`; the write is taken to
  succeed, and it leaves `this.data` as it is.
* A calendar-day identifier (the text `Date.prototype.toDateString` prints,
  such as `Fri Nov 06 2026`) is the number of that calendar day, counted from
  1970-01-01; equal texts are equal numbers, and the next calendar day is `d + 1`.
* The host time zone is a parameter `zone : Zone`: `zone d` is the timestamp in
  milliseconds that `new Date(text)` yields for the identifier of day `d`, the
  start of that local day.
* `getTodayString()` reads the clock; its result is the parameter `today` of
  `claim` and `checkStreak`.
* A text typed by the user or read from `localStorage` is a `String`; its
  JavaScript `length` counts UTF-16 code units (`jsLength`). Unpaired
  surrogates, which a `String` cannot hold, are outside the model.
* `JSON.parse` belongs to the host: `loadData` takes it as a parameter, and
  `jsonParse`, the JSON grammar, is the concrete host used on sample texts.
* DOM updates, animations and timers do not touch `this.data` and are left out.
-/

namespace SocialStableCoin

/-! ## Data model -/

/-- Calendar-day identifier: the day number of a local calendar date. -/
abbrev Day := Int

/-- The host time zone, as seen through `new Date(dayText)`: the timestamp
(milliseconds since the epoch) at which the given local calendar day starts. -/
abbrev Zone := Day → Int

/-- The persisted record `this.data` (`getDefaultData`, lines 10-20). -/
structure LedgerState where
  balance : Int
  currentStreak : Int
  bestStreak : Int
  totalClaimed : Int
  lastClaimDate : Option Day
  claimedDays : List Day
  walletAddress : String
deriving DecidableEq, Repr

/-- Default data structure (`getDefaultData`). -/
def getDefaultData : LedgerState :=
  { balance := 0
    currentStreak := 0
    bestStreak := 0
    totalClaimed := 0
    lastClaimDate := none
    claimedDays := []
    walletAddress := "" }

/-! ## Numbers -/

/-- The spacing of the doubles around a magnitude `n`: 1 below
`2^53 = 9007199254740992`, and twice as much with every further power of two.
The first argument bounds the number of halvings; `n` itself is always enough. -/
def ulpAt : Nat → Nat → Nat
  | 0, _ => 1
  | fuel + 1, n => if n < 9007199254740992 then 1 else 2 * ulpAt fuel (n / 2)

/-- The double nearest to an integer, ties to the even significand: an integer
of magnitude at most `2^53` is a double; beyond, the doubles are the multiples
of the spacing `ulp`, and the integer goes to the nearer of the two around it,
or on a tie to the one whose multiple `m` is even. -/
def roundBinary64 (x : Int) : Int :=
  if x.natAbs ≤ 9007199254740992 then x
  else
    let ulp := ulpAt x.natAbs x.natAbs
    let q := x.natAbs / ulp
    let r := x.natAbs % ulp
    let m :=
      if 2 * r < ulp then q
      else if ulp < 2 * r then q + 1
      else if q % 2 = 0 then q
      else q + 1
    x.sign * ((m * ulp : Nat) : Int)

/-- The sum `a + b` of two numbers as JavaScript computes it. -/
def jsAdd (a b : Int) : Int :=
  roundBinary64 (a + b)

/-! ## Day arithmetic -/

/-- The constant `1000 * 60 * 60 * 24` of lines 99 and 182. -/
def msPerDay : Int := 1000 * 60 * 60 * 24

/-- The value `diffDays` of lines 96-99 and 179-182:
`Math.floor((new Date(today) - new Date(lastClaim)) / (1000 * 60 * 60 * 24))`.
`Int.fdiv` is division rounding towards minus infinity. -/
def diffDays (zone : Zone) (lastClaim today : Day) : Int :=
  Int.fdiv (zone today - zone lastClaim) msPerDay

/-! ## Reward tiers -/

/-- Calculate multiplier based on streak (`getMultiplier`, lines 109-115). -/
def getMultiplier (data : LedgerState) : Int :=
  let streak := data.currentStreak
  if streak ≥ 100 then 5
  else if streak ≥ 30 then 3
  else if streak ≥ 7 then 2
  else 1

/-- Calculate base reward based on tier (`getBaseReward`, lines 118-124). -/
def getBaseReward (data : LedgerState) : Int :=
  let streak := data.currentStreak
  if streak ≥ 100 then 100
  else if streak ≥ 30 then 50
  else if streak ≥ 7 then 25
  else 10

/-- Get total reward with multiplier (`getTotalReward`, lines 127-129). -/
def getTotalReward (data : LedgerState) : Int :=
  getBaseReward data * getMultiplier data

/-! ## Claim -/

/-- What `claim` tells the user: the toast of line 172 or the one of line 215,
which carries the reward. -/
inductive ClaimOutcome where
  | alreadyClaimed
  | claimed (reward : Int)
deriving DecidableEq, Repr

/-- Check if claim is available: the value `canClaim` of line 134. -/
def checkClaimAvailability (data : LedgerState) (today : Day) : Bool :=
  data.lastClaimDate ≠ some today

/-- Claim reward (`claim`, lines 168-221), with `today` the value of
`getTodayString()`: the guard of lines 171-174, the streak update of lines
177-194, the reward of line 197, the update of lines 200-203 and the best
streak of lines 206-208. -/
def claim (zone : Zone) (data : LedgerState) (today : Day) : LedgerState × ClaimOutcome :=
  if data.lastClaimDate = some today then
    (data, ClaimOutcome.alreadyClaimed)
  else
    let data1 : LedgerState :=
      match data.lastClaimDate with
      | some lastClaim =>
        if diffDays zone lastClaim today = 1 then
          { data with currentStreak := jsAdd data.currentStreak 1 }
        else
          { data with currentStreak := 1 }
      | none => { data with currentStreak := 1 }
    let reward := getTotalReward data1
    let data2 : LedgerState :=
      { data1 with
        balance := jsAdd data1.balance reward
        totalClaimed := jsAdd data1.totalClaimed reward
        lastClaimDate := some today
        claimedDays := data1.claimedDays ++ [today] }
    let data3 : LedgerState :=
      if data2.currentStreak > data2.bestStreak then
        { data2 with bestStreak := data2.currentStreak }
      else data2
    (data3, ClaimOutcome.claimed reward)

/-- The first half of an accepted `claim`, named for the proofs: the streak
update of lines 177-194. -/
def updateStreak (zone : Zone) (data : LedgerState) (today : Day) : LedgerState :=
  match data.lastClaimDate with
  | some lastClaim =>
    if diffDays zone lastClaim today = 1 then
      { data with currentStreak := jsAdd data.currentStreak 1 }
    else
      { data with currentStreak := 1 }
  | none => { data with currentStreak := 1 }

/-- The second half of an accepted `claim`, named for the proofs: lines 197-208
on the record whose streak is already updated. -/
def recordClaim (data : LedgerState) (today : Day) : LedgerState × ClaimOutcome :=
  let reward := getTotalReward data
  let data2 : LedgerState :=
    { data with
      balance := jsAdd data.balance reward
      totalClaimed := jsAdd data.totalClaimed reward
      lastClaimDate := some today
      claimedDays := data.claimedDays ++ [today] }
  let data3 : LedgerState :=
    if data2.currentStreak > data2.bestStreak then
      { data2 with bestStreak := data2.currentStreak }
    else data2
  (data3, ClaimOutcome.claimed reward)

/-- Check and update streak (`checkStreak`, lines 88-106), with `today` the
value of `getTodayString()`. -/
def checkStreak (zone : Zone) (data : LedgerState) (today : Day) : LedgerState :=
  match data.lastClaimDate with
  | none => data
  | some lastClaim =>
    if diffDays zone lastClaim today > 1 then
      { data with currentStreak := 0 }
    else data

/-- The bonus for sharing of `shareOnSocial` (lines 382-384):
`this.data.balance += 5`. The button only selects between opening a window and
showing a toast. -/
def shareOnSocial (data : LedgerState) (twitterBtn : Bool) : LedgerState :=
  let _ := twitterBtn
  { data with balance := jsAdd data.balance 5 }

/-! ## Wallet address -/

/-- Code points removed by `String.prototype.trim`: the ECMAScript `WhiteSpace`
and `LineTerminator` productions. -/
def isTrimChar (c : Char) : Bool :=
  let n := c.toNat
  n = 0x09 || n = 0x0A || n = 0x0B || n = 0x0C || n = 0x0D || n = 0x20 || n = 0xA0
    || n = 0x1680 || (0x2000 ≤ n && n ≤ 0x200A) || n = 0x2028 || n = 0x2029
    || n = 0x202F || n = 0x205F || n = 0x3000 || n = 0xFEFF

/-- The text `value.trim()`: leading and trailing white space removed. -/
def jsTrim (value : String) : String :=
  String.mk ((((value.data.dropWhile isTrimChar).reverse).dropWhile isTrimChar).reverse)

/-- The property `length` of a JavaScript string: its number of UTF-16 code
units, two for a code point outside the basic plane. -/
def jsLength (text : String) : Nat :=
  (text.data.map (fun c => if c.toNat < 0x10000 then 1 else 2)).sum

/-- The test `address.startsWith('0x')`. -/
def startsWith0x (address : String) : Bool :=
  match address.data with
  | '0' :: 'x' :: _ => true
  | _ => false

/-- What `saveAddress` tells the user: the toasts of lines 358, 363 and 369. -/
inductive SaveOutcome where
  | enterAnAddress
  | invalidFormat
  | saved
deriving DecidableEq, Repr

/-- Save wallet address (`saveAddress`, lines 354-370), with `value` the
content of the input field. The empty string is the only falsy string. -/
def saveAddress (data : LedgerState) (value : String) : LedgerState × SaveOutcome :=
  let address := jsTrim value
  if address.data = [] then
    (data, SaveOutcome.enterAnAddress)
  else if !startsWith0x address || jsLength address ≠ 42 then
    (data, SaveOutcome.invalidFormat)
  else
    ({ data with walletAddress := address }, SaveOutcome.saved)

/-! ## Sequences of operations -/

/-- The user actions that reach `this.data`, each with the input it reads. -/
inductive Op where
  | claim (today : Day)
  | share (twitterBtn : Bool)
  | saveAddress (value : String)
  | checkStreak (today : Day)
deriving DecidableEq, Repr

/-- The record after one action. -/
def step (zone : Zone) (data : LedgerState) : Op → LedgerState
  | Op.claim today => (claim zone data today).1
  | Op.share twitterBtn => shareOnSocial data twitterBtn
  | Op.saveAddress value => (saveAddress data value).1
  | Op.checkStreak today => checkStreak zone data today

/-- The record after a sequence of actions, first action first. -/
def run (zone : Zone) (data : LedgerState) (ops : List Op) : LedgerState :=
  ops.foldl (step zone) data

/-- The days on which the actions of a sequence ask for a claim, in order. -/
def claimDaysOf : List Op → List Day
  | [] => []
  | Op.claim today :: ops => today :: claimDaysOf ops
  | _ :: ops => claimDaysOf ops

/-- The reward a call of `claim` grants: none when it is rejected. -/
def grantedReward : ClaimOutcome → Int
  | ClaimOutcome.claimed reward => reward
  | ClaimOutcome.alreadyClaimed => 0

/-- The exact sum of the rewards that the claims of a sequence of actions
grant. -/
def claimRewards (zone : Zone) (data : LedgerState) : List Op → Int
  | [] => 0
  | Op.claim today :: ops =>
    grantedReward (claim zone data today).2 + claimRewards zone (claim zone data today).1 ops
  | op :: ops => claimRewards zone (step zone data op) ops

/-- The number of shares in a sequence of actions. -/
def shareCount : List Op → Nat
  | [] => 0
  | Op.share _ :: ops => shareCount ops + 1
  | _ :: ops => shareCount ops

/-- The invariant behind the one-entry-per-day property: every claimed day is
at most `lastClaimDate`, and `claimedDays` is strictly increasing. -/
def DaysOrdered (data : LedgerState) : Prop :=
  (∀ d ∈ data.claimedDays, ∃ last, data.lastClaimDate = some last ∧ d ≤ last) ∧
  data.claimedDays.Pairwise (fun a b => a < b)

/-- The record after consecutive shares, one for each button pressed. -/
def shareAll (data : LedgerState) (buttons : List Bool) : LedgerState :=
  buttons.foldl shareOnSocial data

/-! ## Time zones -/

/-- A zone without clock changes: every local day starts `offset` milliseconds
after the same day starts in UTC. -/
def fixedOffsetZone (offset : Int) : Zone :=
  fun d => d * msPerDay + offset

/-- The zone America/New_York during 2026. Local midnight is 05:00 UTC on
standard time and 04:00 UTC on daylight time; daylight time runs from
02:00 on Sun Mar 08 2026 (day 20520) to 02:00 on Sun Nov 01 2026 (day 20758),
so the days that start on daylight time are 20521 to 20758. -/
def newYork2026 : Zone :=
  fun d =>
    if 20521 ≤ d ∧ d ≤ 20758 then d * msPerDay + 4 * 3600000
    else d * msPerDay + 5 * 3600000

/-! ## Persistence

`JSON.parse` belongs to the host, not to the repository. `loadData` takes it as
a parameter; `jsonParse` below is the JSON grammar of ECMA-404, which
`JSON.parse` accepts exactly, and serves as the concrete host. -/

/-- A parsed JSON value. A number is `mantissa * 10 ^ exponent`, kept exact
(not rounded to a double, and without the sign of `-0`); a string and a member
name are sequences of UTF-16 code units, as JavaScript strings are; the members
of an object are in the order of the text. -/
inductive Json where
  | null
  | bool (b : Bool)
  | num (mantissa : Int) (exponent : Int)
  | str (units : List Nat)
  | arr (items : List Json)
  | obj (members : List (List Nat × Json))
deriving Repr

/-- The exception `SyntaxError` that `JSON.parse` throws on a text outside the
JSON grammar. -/
inductive SyntaxError where
  | unexpectedToken
deriving DecidableEq, Repr

/-- The UTF-16 code units of one code point. -/
def utf16OfChar (c : Char) : List Nat :=
  let n := c.toNat
  if n < 0x10000 then [n]
  else [0xD800 + (n - 0x10000) / 0x400, 0xDC00 + (n - 0x10000) % 0x400]

/-- The UTF-16 code units of a text. -/
def utf16 (text : String) : List Nat :=
  (text.data.map utf16OfChar).flatten

/-- JSON white space: space, tab, line feed, carriage return. -/
def isJsonWs (c : Char) : Bool :=
  c = ' ' || c = '\t' || c = '\n' || c = '\r'

/-- Drop leading JSON white space. -/
def skipWs (cs : List Char) : List Char :=
  cs.dropWhile isJsonWs

/-- The value of a decimal digit. -/
def digitValue (c : Char) : Option Nat :=
  if '0' ≤ c ∧ c ≤ '9' then some (c.toNat - '0'.toNat) else none

/-- The value of a hexadecimal digit. -/
def hexValue (c : Char) : Option Nat :=
  if '0' ≤ c ∧ c ≤ '9' then some (c.toNat - '0'.toNat)
  else if 'a' ≤ c ∧ c ≤ 'f' then some (c.toNat - 'a'.toNat + 10)
  else if 'A' ≤ c ∧ c ≤ 'F' then some (c.toNat - 'A'.toNat + 10)
  else none

/-- Read the longest run of decimal digits: the digits read so far (`acc` is
their value, `count` their number) and the rest of the input. -/
def readDigits : List Char → Nat → Nat → Nat × Nat × List Char
  | [], acc, count => (acc, count, [])
  | c :: cs, acc, count =>
    match digitValue c with
    | some d => readDigits cs (acc * 10 + d) (count + 1)
    | none => (acc, count, c :: cs)

/-- The integer part of a JSON number: `0`, or a digit `1`-`9` followed by
digits. -/
def readInt (cs : List Char) : Option (Nat × List Char) :=
  match cs with
  | '0' :: rest => some (0, rest)
  | _ =>
    match readDigits cs 0 0 with
    | (_, 0, _) => none
    | (value, _, rest) => some (value, rest)

/-- The optional fraction of a JSON number: the digits after the point, as a
value and a count. -/
def readFrac (cs : List Char) : Option (Nat × Nat × List Char) :=
  match cs with
  | '.' :: rest =>
    match readDigits rest 0 0 with
    | (_, 0, _) => none
    | r => some r
  | _ => some (0, 0, cs)

/-- The optional exponent of a JSON number. -/
def readExp (cs : List Char) : Option (Int × List Char) :=
  let digits (negative : Bool) (rest : List Char) : Option (Int × List Char) :=
    match readDigits rest 0 0 with
    | (_, 0, _) => none
    | (value, _, rest1) => some (if negative then -(value : Int) else (value : Int), rest1)
  let signed (rest : List Char) : Option (Int × List Char) :=
    match rest with
    | '+' :: rest1 => digits false rest1
    | '-' :: rest1 => digits true rest1
    | _ => digits false rest
  match cs with
  | 'e' :: rest => signed rest
  | 'E' :: rest => signed rest
  | _ => some (0, cs)

/-- A JSON number at the head of the input. -/
def readNumber (cs : List Char) : Option (Json × List Char) :=
  let unsigned (negative : Bool) (rest : List Char) : Option (Json × List Char) :=
    match readInt rest with
    | none => none
    | some (whole, rest1) =>
      match readFrac rest1 with
      | none => none
      | some (frac, places, rest2) =>
        match readExp rest2 with
        | none => none
        | some (exp, rest3) =>
          let magnitude : Int := ((whole * 10 ^ places + frac : Nat) : Int)
          some (Json.num (if negative then -magnitude else magnitude) (exp - places), rest3)
  match cs with
  | '-' :: rest => unsigned true rest
  | _ => unsigned false cs

/-- The characters of a JSON string after its opening quote, up to and
including the closing quote; `acc` holds the code units read so far, reversed. -/
def readString : List Char → List Nat → Option (List Nat × List Char)
  | [], _ => none
  | '"' :: rest, acc => some (acc.reverse, rest)
  | '\\' :: '"' :: rest, acc => readString rest (0x22 :: acc)
  | '\\' :: '\\' :: rest, acc => readString rest (0x5C :: acc)
  | '\\' :: '/' :: rest, acc => readString rest (0x2F :: acc)
  | '\\' :: 'b' :: rest, acc => readString rest (0x08 :: acc)
  | '\\' :: 'f' :: rest, acc => readString rest (0x0C :: acc)
  | '\\' :: 'n' :: rest, acc => readString rest (0x0A :: acc)
  | '\\' :: 'r' :: rest, acc => readString rest (0x0D :: acc)
  | '\\' :: 't' :: rest, acc => readString rest (0x09 :: acc)
  | '\\' :: 'u' :: a :: b :: c :: d :: rest, acc =>
    match hexValue a, hexValue b, hexValue c, hexValue d with
    | some x, some y, some z, some w =>
      readString rest ((((x * 16 + y) * 16 + z) * 16 + w) :: acc)
    | _, _, _, _ => none
  | '\\' :: _, _ => none
  | c :: rest, acc =>
    if c.toNat < 0x20 then none
    else readString rest ((utf16OfChar c).reverse ++ acc)

/-- The elements of a non-empty array, the input standing at the first one;
`value` reads one value, `acc` holds the elements read so far, reversed. The
first argument bounds the number of elements: every element takes a character. -/
def readElements (value : List Char → Option (Json × List Char)) :
    Nat → List Char → List Json → Option (List Json × List Char)
  | 0, _, _ => none
  | n + 1, cs, acc =>
    match value cs with
    | none => none
    | some (item, rest) =>
      match skipWs rest with
      | ',' :: rest1 => readElements value n rest1 (item :: acc)
      | ']' :: rest1 => some ((item :: acc).reverse, rest1)
      | _ => none

/-- The members of a non-empty object, the input standing before the first
name; `value` reads one value, `acc` holds the members read so far, reversed.
The first argument bounds the number of members: every member takes a character. -/
def readMembers (value : List Char → Option (Json × List Char)) :
    Nat → List Char → List (List Nat × Json) → Option (List (List Nat × Json) × List Char)
  | 0, _, _ => none
  | n + 1, cs, acc =>
    match skipWs cs with
    | '"' :: rest =>
      match readString rest [] with
      | none => none
      | some (name, rest1) =>
        match skipWs rest1 with
        | ':' :: rest2 =>
          match value rest2 with
          | none => none
          | some (item, rest3) =>
            match skipWs rest3 with
            | ',' :: rest4 => readMembers value n rest4 ((name, item) :: acc)
            | '}' :: rest4 => some (((name, item) :: acc).reverse, rest4)
            | _ => none
        | _ => none
    | _ => none

/-- One JSON value, white space before it skipped. `depth` bounds the nesting
of arrays and objects; a text of `n` characters nests less than `n + 1` deep. -/
def readValue : Nat → List Char → Option (Json × List Char)
  | 0, _ => none
  | depth + 1, cs =>
    match skipWs cs with
    | 'n' :: 'u' :: 'l' :: 'l' :: rest => some (Json.null, rest)
    | 't' :: 'r' :: 'u' :: 'e' :: rest => some (Json.bool true, rest)
    | 'f' :: 'a' :: 'l' :: 's' :: 'e' :: rest => some (Json.bool false, rest)
    | '"' :: rest =>
      match readString rest [] with
      | none => none
      | some (units, rest1) => some (Json.str units, rest1)
    | '[' :: rest =>
      match skipWs rest with
      | ']' :: rest1 => some (Json.arr [], rest1)
      | rest1 =>
        match readElements (readValue depth) (rest1.length + 1) rest1 [] with
        | none => none
        | some (items, rest2) => some (Json.arr items, rest2)
    | '{' :: rest =>
      match skipWs rest with
      | '}' :: rest1 => some (Json.obj [], rest1)
      | rest1 =>
        match readMembers (readValue depth) (rest1.length + 1) rest1 [] with
        | none => none
        | some (members, rest2) => some (Json.obj members, rest2)
    | rest => readNumber rest

/-- The host function `JSON.parse` on a text: the value, or the `SyntaxError`
thrown when the text is not one JSON value between optional white space. -/
def jsonParse (text : String) : Except SyntaxError Json :=
  match readValue (text.data.length + 1) text.data with
  | none => Except.error SyntaxError.unexpectedToken
  | some (value, rest) =>
    match skipWs rest with
    | [] => Except.ok value
    | _ => Except.error SyntaxError.unexpectedToken

/-- The object literal of `getDefaultData` (lines 11-19) as a JSON value. -/
def getDefaultDataJson : Json :=
  Json.obj
    [ (utf16 "balance", Json.num 0 0),
      (utf16 "currentStreak", Json.num 0 0),
      (utf16 "bestStreak", Json.num 0 0),
      (utf16 "totalClaimed", Json.num 0 0),
      (utf16 "lastClaimDate", Json.null),
      (utf16 "claimedDays", Json.arr []),
      (utf16 "walletAddress", Json.str []) ]

/-- Load data from localStorage (`loadData`, lines 23-29). `stored` is the
result of `localStorage.getItem` (`none` for `null`, the key being absent),
`parse` is `JSON.parse` and `defaultData` the result of `getDefaultData`. The
test `if (saved)` fails for `null` and for the empty string. An error is the
exception that escapes `loadData`. -/
def loadData {Value Error : Type} (parse : String → Except Error Value) (defaultData : Value)
    (stored : Option String) : Except Error Value :=
  match stored with
  | none => Except.ok defaultData
  | some saved =>
    if saved.data = [] then Except.ok defaultData
    else parse saved

/-! ## Sample inputs -/

/-- A record claimed on Fri Nov 06 2026 (day 20763) whose `bestStreak` lags
behind its `currentStreak`, as an edited `localStorage` entry can hold. -/
def laggingRecord : LedgerState :=
  { balance := 50
    currentStreak := 5
    bestStreak := 0
    totalClaimed := 50
    lastClaimDate := some 20763
    claimedDays := [20763]
    walletAddress := "" }

/-- A record with a ten-day streak last claimed on Sat Mar 07 2026 (day 20519). -/
def tenDayRecord : LedgerState :=
  { balance := 130
    currentStreak := 10
    bestStreak := 10
    totalClaimed := 130
    lastClaimDate := some 20519
    claimedDays := [20510, 20511, 20512, 20513, 20514, 20515, 20516, 20517, 20518, 20519]
    walletAddress := "" }

/-- A record with a six-day streak last claimed on Sat Mar 07 2026 (day 20519):
the next consecutive claim reaches the tier of seven days. -/
def sixDayRecord : LedgerState :=
  { balance := 60
    currentStreak := 6
    bestStreak := 6
    totalClaimed := 60
    lastClaimDate := some 20519
    claimedDays := [20514, 20515, 20516, 20517, 20518, 20519]
    walletAddress := "" }

/-- A record whose streak is `2^53` and whose totals are `2^55`, last claimed on
Sat Mar 07 2026 (day 20519), as an edited `localStorage` entry can hold. -/
def saturatedRecord : LedgerState :=
  { balance := 36028797018963968
    currentStreak := 9007199254740992
    bestStreak := 9007199254740992
    totalClaimed := 36028797018963968
    lastClaimDate := some 20519
    claimedDays := [20519]
    walletAddress := "" }

/-- The default record with a balance of `2^53`. -/
def hugeBalanceRecord : LedgerState :=
  { getDefaultData with balance := 9007199254740992 }

/-- A well-formed address: `0x` and forty hexadecimal digits. -/
def sampleAddress : String := "0x52908400098527886E0F7030069857D2E4169EE7"

/-- The well-formed address typed with a blank in front: 43 characters. -/
def paddedAddress : String := " 0x52908400098527886E0F7030069857D2E4169EE7"

/-- A 42-character text that starts with `0x` and ends with a blank. -/
def trailingBlankAddress : String := "0x52908400098527886E0F7030069857D2E4169EE "

/-- A 42-character text that does not start with `0x`. -/
def unprefixedAddress : String := "5290840009852788526E0F7030069857D2E4169EE7"

/-- A snapshot cut short while being written. -/
def truncatedSnapshot : String := "\x7b\"balance\":10,\"currentStr"

/-- The text `JSON.stringify` writes for the default record. -/
def defaultSnapshot : String :=
  "\x7b\"balance\":0,\"currentStreak\":0,\"bestStreak\":0,\"totalClaimed\":0," ++
  "\"lastClaimDate\":null,\"claimedDays\":[],\"walletAddress\":\"\"\x7d"

/-! ## Auxiliary lemmas -/

theorem two_pow_53 : (2 : Int) ^ 53 = 9007199254740992 := by
  norm_num

theorem roundBinary64_exact (x : Int) (hlo : -9007199254740992 ≤ x)
    (hhi : x ≤ 9007199254740992) : roundBinary64 x = x := by
  unfold roundBinary64
  rw [if_pos (by omega)]

theorem jsAdd_exact (a b : Int) (hlo : -9007199254740992 ≤ a + b)
    (hhi : a + b ≤ 9007199254740992) : jsAdd a b = a + b :=
  roundBinary64_exact (a + b) hlo hhi

theorem msPerDay_eq : msPerDay = 86400000 := by
  decide

theorem diffDays_eq_of_bounds (zone : Zone) (lastClaim today : Day) (gap : Int)
    (hlo : gap * msPerDay ≤ zone today - zone lastClaim)
    (hhi : zone today - zone lastClaim < (gap + 1) * msPerDay) :
    diffDays zone lastClaim today = gap := by
  unfold diffDays
  rw [Int.fdiv_eq_ediv _ (by decide : (0 : Int) ≤ msPerDay)]
  rw [msPerDay_eq] at hlo hhi ⊢
  omega

theorem getTotalReward_eq (data : LedgerState) :
    getTotalReward data =
      if data.currentStreak ≥ 100 then 500
      else if data.currentStreak ≥ 30 then 150
      else if data.currentStreak ≥ 7 then 50
      else 10 := by
  unfold getTotalReward getBaseReward getMultiplier
  simp only
  split_ifs <;> rfl

theorem getTotalReward_bounds (data : LedgerState) :
    10 ≤ getTotalReward data ∧ getTotalReward data ≤ 500 := by
  rw [getTotalReward_eq]
  split_ifs <;> constructor <;> decide

theorem claim_of_eq (zone : Zone) (data : LedgerState) (today : Day)
    (h : data.lastClaimDate = some today) :
    claim zone data today = (data, ClaimOutcome.alreadyClaimed) := by
  simp [claim, h]

theorem claim_of_ne (zone : Zone) (data : LedgerState) (today : Day)
    (h : data.lastClaimDate ≠ some today) :
    claim zone data today = recordClaim (updateStreak zone data today) today := by
  unfold claim
  rw [if_neg h]
  rfl

theorem recordClaim_lastClaimDate (data : LedgerState) (today : Day) :
    (recordClaim data today).1.lastClaimDate = some today := by
  unfold recordClaim
  simp only
  split_ifs <;> rfl

theorem recordClaim_claimedDays (data : LedgerState) (today : Day) :
    (recordClaim data today).1.claimedDays = data.claimedDays ++ [today] := by
  unfold recordClaim
  simp only
  split_ifs <;> rfl

theorem recordClaim_currentStreak (data : LedgerState) (today : Day) :
    (recordClaim data today).1.currentStreak = data.currentStreak := by
  unfold recordClaim
  simp only
  split_ifs <;> rfl

theorem recordClaim_bestStreak (data : LedgerState) (today : Day) :
    (recordClaim data today).1.bestStreak = max data.bestStreak data.currentStreak := by
  unfold recordClaim
  simp only
  split_ifs with h
  · simp only [gt_iff_lt] at h
    simp [max_eq_right (le_of_lt h)]
  · simp only [gt_iff_lt, not_lt] at h
    simp [max_eq_left h]

theorem recordClaim_totals (data : LedgerState) (today : Day) :
    (recordClaim data today).1.balance = jsAdd data.balance (getTotalReward data) ∧
    (recordClaim data today).1.totalClaimed = jsAdd data.totalClaimed (getTotalReward data) ∧
    (recordClaim data today).1.walletAddress = data.walletAddress ∧
    (recordClaim data today).2 = ClaimOutcome.claimed (getTotalReward data) := by
  refine ⟨?_, ?_, ?_, rfl⟩ <;>
    (unfold recordClaim; simp only; split_ifs <;> rfl)

theorem updateStreak_frame (zone : Zone) (data : LedgerState) (today : Day) :
    (updateStreak zone data today).balance = data.balance ∧
    (updateStreak zone data today).bestStreak = data.bestStreak ∧
    (updateStreak zone data today).totalClaimed = data.totalClaimed ∧
    (updateStreak zone data today).lastClaimDate = data.lastClaimDate ∧
    (updateStreak zone data today).claimedDays = data.claimedDays ∧
    (updateStreak zone data today).walletAddress = data.walletAddress := by
  unfold updateStreak
  split
  · split_ifs <;> simp
  · simp

theorem claim_lastClaimDate (zone : Zone) (data : LedgerState) (today : Day) :
    (claim zone data today).1.lastClaimDate = some today := by
  by_cases h : data.lastClaimDate = some today
  · rw [claim_of_eq zone data today h]; exact h
  · rw [claim_of_ne zone data today h]; exact recordClaim_lastClaimDate _ _

theorem claim_currentStreak (zone : Zone) (data : LedgerState) (today : Day)
    (h : data.lastClaimDate ≠ some today) :
    (claim zone data today).1.currentStreak = (updateStreak zone data today).currentStreak := by
  rw [claim_of_ne zone data today h]; exact recordClaim_currentStreak _ _

theorem claim_outcome (zone : Zone) (data : LedgerState) (today : Day)
    (h : data.lastClaimDate ≠ some today) :
    (claim zone data today).2 = ClaimOutcome.claimed (getTotalReward (claim zone data today).1) := by
  have hrew : getTotalReward (claim zone data today).1 =
      getTotalReward (updateStreak zone data today) := by
    rw [getTotalReward_eq, getTotalReward_eq, claim_currentStreak zone data today h]
  rw [hrew, claim_of_ne zone data today h]; rfl

theorem claim_first (zone : Zone) (data : LedgerState) (today : Day)
    (h : data.lastClaimDate = none) :
    (claim zone data today).1.currentStreak = 1 ∧
    (claim zone data today).2 = ClaimOutcome.claimed 10 := by
  have hne : data.lastClaimDate ≠ some today := by rw [h]; exact Option.noConfusion
  have hcs : (claim zone data today).1.currentStreak = 1 := by
    rw [claim_currentStreak zone data today hne]; simp [updateStreak, h]
  refine ⟨hcs, ?_⟩
  rw [claim_outcome zone data today hne, getTotalReward_eq, hcs]; rfl

theorem claim_next (zone : Zone) (data : LedgerState) (last today : Day)
    (h : data.lastClaimDate = some last) (hne : last ≠ today)
    (hgap : diffDays zone last today = 1)
    (hlo : -9007199254740992 ≤ data.currentStreak) (hhi : data.currentStreak < 9007199254740992) :
    (claim zone data today).1.currentStreak = data.currentStreak + 1 := by
  have hne1 : data.lastClaimDate ≠ some today := by
    rw [h]; intro hc; exact hne (Option.some.inj hc)
  rw [claim_currentStreak zone data today hne1]
  simp only [updateStreak, h, hgap, if_true]
  exact jsAdd_exact _ _ (by omega) (by omega)

theorem claim_reset (zone : Zone) (data : LedgerState) (last today : Day)
    (h : data.lastClaimDate = some last) (hne : last ≠ today)
    (hgap : diffDays zone last today ≠ 1) :
    (claim zone data today).1.currentStreak = 1 := by
  have hne1 : data.lastClaimDate ≠ some today := by
    rw [h]; intro hc; exact hne (Option.some.inj hc)
  rw [claim_currentStreak zone data today hne1]
  simp [updateStreak, h, hgap]

theorem saveAddress_totals (data : LedgerState) (value : String) :
    (saveAddress data value).1.balance = data.balance ∧
    (saveAddress data value).1.totalClaimed = data.totalClaimed := by
  unfold saveAddress
  simp only
  split_ifs <;> exact ⟨rfl, rfl⟩

theorem checkStreak_totals (zone : Zone) (data : LedgerState) (today : Day) :
    (checkStreak zone data today).balance = data.balance ∧
    (checkStreak zone data today).totalClaimed = data.totalClaimed := by
  unfold checkStreak
  split
  · exact ⟨rfl, rfl⟩
  · split_ifs <;> exact ⟨rfl, rfl⟩

theorem claim_totals (zone : Zone) (data : LedgerState) (today : Day)
    (htlo : -9007199254740992 ≤ data.totalClaimed)
    (hthi : data.totalClaimed + 500 ≤ 9007199254740992)
    (hblo : -9007199254740992 ≤ data.balance)
    (hbhi : data.balance + 500 ≤ 9007199254740992) :
    (claim zone data today).1.totalClaimed =
      data.totalClaimed + grantedReward (claim zone data today).2 ∧
    (claim zone data today).1.balance =
      data.balance + grantedReward (claim zone data today).2 ∧
    0 ≤ grantedReward (claim zone data today).2 ∧
    grantedReward (claim zone data today).2 ≤ 500 := by
  by_cases h : data.lastClaimDate = some today
  · rw [claim_of_eq zone data today h]
    simp [grantedReward]
  · rw [claim_of_ne zone data today h]
    obtain ⟨hbal, -, htot, -, -, -⟩ := updateStreak_frame zone data today
    obtain ⟨rb, rt, -, ro⟩ := recordClaim_totals (updateStreak zone data today) today
    obtain ⟨g1, g2⟩ := getTotalReward_bounds (updateStreak zone data today)
    have hg : grantedReward (ClaimOutcome.claimed (getTotalReward (updateStreak zone data today)))
        = getTotalReward (updateStreak zone data today) := rfl
    rw [rb, rt, ro, hbal, htot, hg]
    exact ⟨jsAdd_exact _ _ (by omega) (by omega), jsAdd_exact _ _ (by omega) (by omega),
      by omega, g2⟩

theorem shareAll_totalClaimed (buttons : List Bool) :
    ∀ data : LedgerState, (shareAll data buttons).totalClaimed = data.totalClaimed := by
  induction buttons with
  | nil => intro data; rfl
  | cons b bs ih =>
    intro data
    have hstep : shareAll data (b :: bs) = shareAll (shareOnSocial data b) bs := rfl
    rw [hstep, ih]
    rfl

theorem shareAll_eq (buttons : List Bool) :
    ∀ data : LedgerState, -9007199254740992 ≤ data.balance →
      data.balance + 5 * (buttons.length : Int) ≤ 9007199254740992 →
      shareAll data buttons =
        { data with balance := data.balance + 5 * (buttons.length : Int) } := by
  induction buttons with
  | nil => intro data _ _; simp [shareAll]
  | cons b bs ih =>
    intro data hlo hhi
    have hstep : shareAll data (b :: bs) = shareAll (shareOnSocial data b) bs := rfl
    simp only [List.length_cons, Nat.cast_succ] at hhi ⊢
    have hb : (shareOnSocial data b).balance = data.balance + 5 :=
      jsAdd_exact _ _ (by omega) (by omega)
    rw [hstep, ih (shareOnSocial data b) (by rw [hb]; omega) (by rw [hb]; omega), hb]
    simp only [shareOnSocial]
    congr 1
    ring

theorem run_totals (zone : Zone) (ops : List Op) :
    ∀ data : LedgerState,
      -9007199254740992 ≤ data.totalClaimed →
      data.totalClaimed + 500 * (ops.length : Int) ≤ 9007199254740992 →
      -9007199254740992 ≤ data.balance →
      data.balance + 500 * (ops.length : Int) ≤ 9007199254740992 →
      (run zone data ops).totalClaimed = data.totalClaimed + claimRewards zone data ops ∧
      (run zone data ops).balance =
        data.balance + claimRewards zone data ops + 5 * (shareCount ops : Int) := by
  induction ops with
  | nil => intro data _ _ _ _; simp [run, claimRewards, shareCount]
  | cons op ops ih =>
    intro data htlo hthi hblo hbhi
    have hrun : run zone data (op :: ops) = run zone (step zone data op) ops := rfl
    simp only [List.length_cons, Nat.cast_succ] at hthi hbhi
    have hlen : (0 : Int) ≤ (ops.length : Int) := Int.ofNat_nonneg _
    rw [hrun]
    cases op with
    | claim today =>
      obtain ⟨c1, c2, c3, c4⟩ := claim_totals zone data today htlo (by omega) hblo (by omega)
      have hs : step zone data (Op.claim today) = (claim zone data today).1 := rfl
      obtain ⟨h1, h2⟩ := ih (step zone data (Op.claim today))
        (by rw [hs, c1]; omega) (by rw [hs, c1]; omega)
        (by rw [hs, c2]; omega) (by rw [hs, c2]; omega)
      have hc : claimRewards zone data (Op.claim today :: ops) =
          grantedReward (claim zone data today).2 +
            claimRewards zone (claim zone data today).1 ops := rfl
      have hn : shareCount (Op.claim today :: ops) = shareCount ops := rfl
      rw [h1, h2, hs, c1, c2, hc, hn]
      exact ⟨by ring, by ring⟩
    | share twitterBtn =>
      have hs : step zone data (Op.share twitterBtn) = shareOnSocial data twitterBtn := rfl
      have b : (shareOnSocial data twitterBtn).balance = data.balance + 5 :=
        jsAdd_exact _ _ (by omega) (by omega)
      have t : (shareOnSocial data twitterBtn).totalClaimed = data.totalClaimed := rfl
      obtain ⟨h1, h2⟩ := ih (step zone data (Op.share twitterBtn))
        (by rw [hs, t]; omega) (by rw [hs, t]; omega)
        (by rw [hs, b]; omega) (by rw [hs, b]; omega)
      have hc : claimRewards zone data (Op.share twitterBtn :: ops) =
          claimRewards zone (shareOnSocial data twitterBtn) ops := rfl
      have hn : shareCount (Op.share twitterBtn :: ops) = shareCount ops + 1 := rfl
      rw [h1, h2, hs, b, t, hc, hn, Nat.cast_succ]
      exact ⟨by ring, by ring⟩
    | saveAddress value =>
      have hs : step zone data (Op.saveAddress value) = (saveAddress data value).1 := rfl
      obtain ⟨c1, c2⟩ := saveAddress_totals data value
      obtain ⟨h1, h2⟩ := ih (step zone data (Op.saveAddress value))
        (by rw [hs, c2]; omega) (by rw [hs, c2]; omega)
        (by rw [hs, c1]; omega) (by rw [hs, c1]; omega)
      have hc : claimRewards zone data (Op.saveAddress value :: ops) =
          claimRewards zone (saveAddress data value).1 ops := rfl
      have hn : shareCount (Op.saveAddress value :: ops) = shareCount ops := rfl
      rw [h1, h2, hs, c1, c2, hc, hn]
      exact ⟨by ring, by ring⟩
    | checkStreak today =>
      have hs : step zone data (Op.checkStreak today) = checkStreak zone data today := rfl
      obtain ⟨c1, c2⟩ := checkStreak_totals zone data today
      obtain ⟨h1, h2⟩ := ih (step zone data (Op.checkStreak today))
        (by rw [hs, c2]; omega) (by rw [hs, c2]; omega)
        (by rw [hs, c1]; omega) (by rw [hs, c1]; omega)
      have hc : claimRewards zone data (Op.checkStreak today :: ops) =
          claimRewards zone (checkStreak zone data today) ops := rfl
      have hn : shareCount (Op.checkStreak today :: ops) = shareCount ops := rfl
      rw [h1, h2, hs, c1, c2, hc, hn]
      exact ⟨by ring, by ring⟩

/-! ## Properties of the specification -/

/-- C1: when `lastClaimDate` is `today`, `claim` grants no reward and returns
the record as it was, every field included; hence a second `claim` on the same
`today`, right after a first one, is rejected and changes nothing. -/
theorem claim_same_day_rejected (zone : Zone) (s : LedgerState) (today : Day) :
    (s.lastClaimDate = some today →
      claim zone s today = (s, ClaimOutcome.alreadyClaimed) ∧
      checkClaimAvailability s today = false) ∧
    claim zone (claim zone s today).1 today =
      ((claim zone s today).1, ClaimOutcome.alreadyClaimed) := by
  refine ⟨fun h => ⟨claim_of_eq zone s today h, by simp [checkClaimAvailability, h]⟩, ?_⟩
  exact claim_of_eq zone _ today (claim_lastClaimDate zone s today)

/-- C1 at a record claimed on day 20763, asked again on day 20763. -/
theorem claim_same_day_rejected_witness :
    laggingRecord.lastClaimDate = some 20763 ∧
    claim newYork2026 laggingRecord 20763 = (laggingRecord, ClaimOutcome.alreadyClaimed) ∧
    checkClaimAvailability laggingRecord 20763 = false :=
  ⟨rfl, (claim_same_day_rejected newYork2026 laggingRecord 20763).1 rfl⟩

/-- C2, as amended: let `lastClaimDate` differ from `today`, let `currentStreak`,
`balance` and `totalClaimed` be within `2^53` in magnitude with room for one
more day or reward, and, when there is a last claim, let the local midnights of
that day and of `today` be at least `today - last` and less than
`today - last + 1` periods of 24 hours apart (no day between them is shortened
by a clock change). Then `claim` sets `currentStreak` to 1 on a first claim, to
the old value plus one when `today` is the calendar day after the last claim
and to 1 otherwise; the reward is the tier reward of that new streak; it is
added to `balance` and to `totalClaimed`; `lastClaimDate` becomes `today`;
`today` is appended to `claimedDays`; `bestStreak` becomes the larger of its
old value and the new streak; `walletAddress` is kept. -/
theorem claim_accepted_transition (zone : Zone) (s : LedgerState) (today : Day)
    (h : s.lastClaimDate ≠ some today)
    (hzone : ∀ last, s.lastClaimDate = some last →
      (today - last) * msPerDay ≤ zone today - zone last ∧
      zone today - zone last < (today - last + 1) * msPerDay)
    (hstreak : -(2 ^ 53) ≤ s.currentStreak ∧ s.currentStreak < 2 ^ 53)
    (hbalance : -(2 ^ 53) ≤ s.balance ∧ s.balance + 500 ≤ 2 ^ 53)
    (htotal : -(2 ^ 53) ≤ s.totalClaimed ∧ s.totalClaimed + 500 ≤ 2 ^ 53) :
    (s.lastClaimDate = none → (claim zone s today).1.currentStreak = 1) ∧
    (∀ last, s.lastClaimDate = some last → today - last = 1 →
      (claim zone s today).1.currentStreak = s.currentStreak + 1) ∧
    (∀ last, s.lastClaimDate = some last → today - last ≠ 1 →
      (claim zone s today).1.currentStreak = 1) ∧
    (claim zone s today).2 = ClaimOutcome.claimed (getTotalReward (claim zone s today).1) ∧
    (claim zone s today).1.balance = s.balance + getTotalReward (claim zone s today).1 ∧
    (claim zone s today).1.totalClaimed =
      s.totalClaimed + getTotalReward (claim zone s today).1 ∧
    (claim zone s today).1.lastClaimDate = some today ∧
    (claim zone s today).1.claimedDays = s.claimedDays ++ [today] ∧
    (claim zone s today).1.bestStreak = max s.bestStreak (claim zone s today).1.currentStreak ∧
    (claim zone s today).1.walletAddress = s.walletAddress := by
  rw [two_pow_53] at hstreak hbalance htotal
  obtain ⟨hbal, hbest, htot, -, hdays, hwal⟩ := updateStreak_frame zone s today
  obtain ⟨rb, rt, rw1, -⟩ := recordClaim_totals (updateStreak zone s today) today
  obtain ⟨g1, g2⟩ := getTotalReward_bounds (updateStreak zone s today)
  have hcs := claim_currentStreak zone s today h
  have hrew : getTotalReward (claim zone s today).1 =
      getTotalReward (updateStreak zone s today) := by
    rw [getTotalReward_eq, getTotalReward_eq, hcs]
  have hne : ∀ last, s.lastClaimDate = some last → last ≠ today := by
    intro last hlast hc
    rw [hc] at hlast
    exact h hlast
  have hdiff : ∀ last, s.lastClaimDate = some last →
      diffDays zone last today = today - last := by
    intro last hlast
    exact diffDays_eq_of_bounds zone last today (today - last)
      (hzone last hlast).1 (hzone last hlast).2
  refine ⟨?_, ?_, ?_, ?_, ?_, ?_, ?_, ?_, ?_, ?_⟩
  · intro hnone
    exact (claim_first zone s today hnone).1
  · intro last hlast hgap
    exact claim_next zone s last today hlast (hne last hlast)
      (by rw [hdiff last hlast]; exact hgap) hstreak.1 hstreak.2
  · intro last hlast hgap
    exact claim_reset zone s last today hlast (hne last hlast)
      (by rw [hdiff last hlast]; exact hgap)
  · exact claim_outcome zone s today h
  · rw [hrew, claim_of_ne zone s today h, rb, hbal]
    exact jsAdd_exact _ _ (by omega) (by omega)
  · rw [hrew, claim_of_ne zone s today h, rt, htot]
    exact jsAdd_exact _ _ (by omega) (by omega)
  · exact claim_lastClaimDate zone s today
  · rw [claim_of_ne zone s today h, recordClaim_claimedDays, hdays]
  · rw [hcs, claim_of_ne zone s today h, recordClaim_bestStreak, hbest]
  · rw [claim_of_ne zone s today h, rw1, hwal]

/-- C2, as amended, in New York at the six-day record last claimed on Sat Mar 07
2026 (day 20519), claiming on the next calendar day, 24 hours later: the streak
becomes 7 and the reward is 50, the tier of 7, not 10, the tier of 6. -/
theorem claim_accepted_transition_witness :
    sixDayRecord.lastClaimDate ≠ some 20520 ∧
    ((20520 - 20519) * msPerDay ≤ newYork2026 20520 - newYork2026 20519 ∧
      newYork2026 20520 - newYork2026 20519 < (20520 - 20519 + 1) * msPerDay) ∧
    (20520 : Day) - 20519 = 1 ∧
    (claim newYork2026 sixDayRecord 20520).1.currentStreak = 6 + 1 ∧
    (claim newYork2026 sixDayRecord 20520).2 = ClaimOutcome.claimed 50 ∧
    (claim newYork2026 sixDayRecord 20520).1.balance = 60 + 50 ∧
    (claim newYork2026 sixDayRecord 20520).1.totalClaimed = 60 + 50 ∧
    (claim newYork2026 sixDayRecord 20520).1.lastClaimDate = some 20520 ∧
    (claim newYork2026 sixDayRecord 20520).1.claimedDays =
      sixDayRecord.claimedDays ++ [20520] ∧
    (claim newYork2026 sixDayRecord 20520).1.bestStreak = 7 := by
  have h := claim_accepted_transition newYork2026 sixDayRecord 20520 (by decide)
    (fun last hl => by
      have e : (20519 : Day) = last := Option.some.inj hl
      rw [← e]
      decide)
    (by rw [two_pow_53]; decide) (by rw [two_pow_53]; decide) (by rw [two_pow_53]; decide)
  refine ⟨by decide, by decide, by decide, h.2.1 20519 rfl (by decide), ?_, ?_, ?_,
    h.2.2.2.2.2.2.1, h.2.2.2.2.2.2.2.1, ?_⟩ <;> decide

/-- C2 as stated fails where a sum leaves the exact range of doubles: the
saturated record was last claimed on day 20519 and is claimed on day 20520, the
next calendar day, 24 hours later; its streak of `2^53` stays `2^53` instead of
growing by one, and its balance of `2^55` grows by 496 instead of the reward of
500. -/
theorem claim_accepted_transition_counterexample :
    saturatedRecord.lastClaimDate = some 20519 ∧
    saturatedRecord.lastClaimDate ≠ some 20520 ∧
    (20520 : Day) - 20519 = 1 ∧
    diffDays newYork2026 20519 20520 = 1 ∧
    (claim newYork2026 saturatedRecord 20520).1.currentStreak = saturatedRecord.currentStreak ∧
    (claim newYork2026 saturatedRecord 20520).1.currentStreak ≠
      saturatedRecord.currentStreak + 1 ∧
    (claim newYork2026 saturatedRecord 20520).2 = ClaimOutcome.claimed 500 ∧
    (claim newYork2026 saturatedRecord 20520).1.balance = saturatedRecord.balance + 496 ∧
    (claim newYork2026 saturatedRecord 20520).1.balance ≠ saturatedRecord.balance + 500 := by
  decide

/-- C3: `getTotalReward`, the product of `getBaseReward` and `getMultiplier`,
is 500 from a streak of 100 on, 150 from 30 to 99, 50 from 7 to 29 and 10
below 7; at 6, 7, 29, 30, 99, 100 it is 10, 50, 50, 150, 150, 500. -/
theorem getTotalReward_tiers (s : LedgerState) :
    getTotalReward s = getBaseReward s * getMultiplier s ∧
    (s.currentStreak ≥ 100 → getTotalReward s = 500) ∧
    (30 ≤ s.currentStreak ∧ s.currentStreak < 100 → getTotalReward s = 150) ∧
    (7 ≤ s.currentStreak ∧ s.currentStreak < 30 → getTotalReward s = 50) ∧
    (s.currentStreak < 7 → getTotalReward s = 10) ∧
    (s.currentStreak = 6 → getTotalReward s = 10) ∧
    (s.currentStreak = 7 → getTotalReward s = 50) ∧
    (s.currentStreak = 29 → getTotalReward s = 50) ∧
    (s.currentStreak = 30 → getTotalReward s = 150) ∧
    (s.currentStreak = 99 → getTotalReward s = 150) ∧
    (s.currentStreak = 100 → getTotalReward s = 500) := by
  refine ⟨rfl, ?_, ?_, ?_, ?_, ?_, ?_, ?_, ?_, ?_, ?_⟩ <;>
    intro h <;> rw [getTotalReward_eq] <;> split_ifs <;> omega

/-- C3 at the ten-day record: a streak of 10 lies in the tier from 7 to 29. -/
theorem getTotalReward_tiers_witness :
    (7 ≤ tenDayRecord.currentStreak ∧ tenDayRecord.currentStreak < 30) ∧
    getTotalReward tenDayRecord = 50 :=
  ⟨by decide, (getTotalReward_tiers tenDayRecord).2.2.2.1 (by decide)⟩

/-- C4, as amended: after `claim`, `bestStreak ≥ currentStreak` holds whenever
the claim is accepted (`lastClaimDate` is not `today`), whatever the record
was, and also whenever the record satisfied it before the call. -/
theorem claim_bestStreak_ge (zone : Zone) (s : LedgerState) (today : Day)
    (h : s.lastClaimDate ≠ some today ∨ s.bestStreak ≥ s.currentStreak) :
    (claim zone s today).1.bestStreak ≥ (claim zone s today).1.currentStreak := by
  by_cases heq : s.lastClaimDate = some today
  · rw [claim_of_eq zone s today heq]
    rcases h with h | h
    · exact absurd heq h
    · exact h
  · rw [claim_of_ne zone s today heq, recordClaim_bestStreak, recordClaim_currentStreak]
    exact le_max_right _ _

/-- C4, as amended, at the lagging record claimed on the following day. -/
theorem claim_bestStreak_ge_witness :
    (laggingRecord.lastClaimDate ≠ some 20764 ∨
      laggingRecord.bestStreak ≥ laggingRecord.currentStreak) ∧
    (claim newYork2026 laggingRecord 20764).1.bestStreak ≥
      (claim newYork2026 laggingRecord 20764).1.currentStreak :=
  ⟨Or.inl (by decide), claim_bestStreak_ge newYork2026 laggingRecord 20764 (Or.inl (by decide))⟩

/-- C4 as stated fails: the lagging record was already claimed on day 20763, so
`claim` on that day returns it unchanged, with `bestStreak` 0 below
`currentStreak` 5. -/
theorem claim_bestStreak_ge_counterexample :
    ¬ ((claim newYork2026 laggingRecord 20763).1.bestStreak ≥
        (claim newYork2026 laggingRecord 20763).1.currentStreak) := by
  decide

/-- C8, as amended: the sharing bonus always yields a record whose fields other
than `balance` are the old ones; when `balance` and `balance + 5` are within
`2^53` in magnitude the new `balance` is the old one plus 5; `n` shares in a
row, on whichever buttons, leave `totalClaimed` as it was and, when
`balance + 5 * n` is still at most `2^53`, raise `balance` by `5 * n`; and
after a sequence of actions from the default record, short enough for the
totals to stay below `2^53`, `totalClaimed` is the sum of the rewards of the
claims alone, while `balance` is that sum plus 5 for each share. -/
theorem shareOnSocial_adds_five (zone : Zone) (s : LedgerState) (twitterBtn : Bool)
    (buttons : List Bool) (ops : List Op) (hlo : -(2 ^ 53) ≤ s.balance) :
    (s.balance + 5 ≤ 2 ^ 53 → (shareOnSocial s twitterBtn).balance = s.balance + 5) ∧
    (shareOnSocial s twitterBtn).currentStreak = s.currentStreak ∧
    (shareOnSocial s twitterBtn).bestStreak = s.bestStreak ∧
    (shareOnSocial s twitterBtn).totalClaimed = s.totalClaimed ∧
    (shareOnSocial s twitterBtn).lastClaimDate = s.lastClaimDate ∧
    (shareOnSocial s twitterBtn).claimedDays = s.claimedDays ∧
    (shareOnSocial s twitterBtn).walletAddress = s.walletAddress ∧
    (s.balance + 5 * (buttons.length : Int) ≤ 2 ^ 53 →
      shareAll s buttons = { s with balance := s.balance + 5 * (buttons.length : Int) }) ∧
    (shareAll s buttons).totalClaimed = s.totalClaimed ∧
    (500 * (ops.length : Int) ≤ 2 ^ 53 →
      (run zone getDefaultData ops).totalClaimed = claimRewards zone getDefaultData ops ∧
      (run zone getDefaultData ops).balance =
        claimRewards zone getDefaultData ops + 5 * (shareCount ops : Int)) := by
  rw [two_pow_53] at hlo ⊢
  refine ⟨?_, rfl, rfl, rfl, rfl, rfl, rfl, ?_, shareAll_totalClaimed buttons s, ?_⟩
  · intro hhi
    exact jsAdd_exact _ _ (by omega) (by omega)
  · intro hhi
    exact shareAll_eq buttons s hlo hhi
  · intro hlen
    have d1 : getDefaultData.totalClaimed = 0 := rfl
    have d2 : getDefaultData.balance = 0 := rfl
    obtain ⟨t1, t2⟩ := run_totals zone ops getDefaultData
      (by rw [d1]; decide) (by rw [d1]; omega) (by rw [d2]; decide) (by rw [d2]; omega)
    rw [t1, t2, d1, d2]
    exact ⟨by ring, by ring⟩

/-- C8, as amended, at the six-day record: one share, three shares in a row,
and a run of a claim, two shares and a rejected claim from the default record. -/
theorem shareOnSocial_adds_five_witness :
    (-(2 ^ 53) ≤ sixDayRecord.balance ∧ sixDayRecord.balance + 5 * (3 : Int) ≤ 2 ^ 53) ∧
    (shareOnSocial sixDayRecord true).balance = 60 + 5 ∧
    shareAll sixDayRecord [true, false, true] = { sixDayRecord with balance := 60 + 5 * 3 } ∧
    (run newYork2026 getDefaultData
      [Op.claim 20763, Op.share true, Op.share false, Op.claim 20763]).totalClaimed = 10 ∧
    (run newYork2026 getDefaultData
      [Op.claim 20763, Op.share true, Op.share false, Op.claim 20763]).balance = 10 + 5 * 2 := by
  have h := shareOnSocial_adds_five newYork2026 sixDayRecord true [true, false, true]
    [Op.claim 20763, Op.share true, Op.share false, Op.claim 20763]
    (by rw [two_pow_53]; decide)
  refine ⟨⟨by rw [two_pow_53]; decide, by rw [two_pow_53]; decide⟩,
    h.1 (by rw [two_pow_53]; decide), h.2.2.2.2.2.2.2.1 (by rw [two_pow_53]; decide), ?_, ?_⟩
  · exact (h.2.2.2.2.2.2.2.2.2 (by rw [two_pow_53]; decide)).1.trans (by decide)
  · exact (h.2.2.2.2.2.2.2.2.2 (by rw [two_pow_53]; decide)).2.trans (by decide)

/-- C8 as stated fails where the sum leaves the exact range of doubles: at a
balance of `2^53` a share raises the balance by 4, not by 5, and two shares in
a row raise it by 8, not by 10. -/
theorem shareOnSocial_adds_five_counterexample :
    hugeBalanceRecord.balance = 9007199254740992 ∧
    (shareOnSocial hugeBalanceRecord true).balance = hugeBalanceRecord.balance + 4 ∧
    (shareOnSocial hugeBalanceRecord true).balance ≠ hugeBalanceRecord.balance + 5 ∧
    (shareAll hugeBalanceRecord [true, true]).balance = hugeBalanceRecord.balance + 8 ∧
    (shareAll hugeBalanceRecord [true, true]).balance ≠ hugeBalanceRecord.balance + 5 * 2 := by
  decide

/-! ### Streaks across a clock change -/

theorem diffDays_fixedOffsetZone (offset : Int) (lastClaim today : Day) :
    diffDays (fixedOffsetZone offset) lastClaim today = today - lastClaim := by
  unfold diffDays fixedOffsetZone
  have hpos : (0 : Int) ≤ msPerDay := by decide
  have hne : msPerDay ≠ 0 := by decide
  rw [Int.fdiv_eq_ediv _ hpos]
  have : today * msPerDay + offset - (lastClaim * msPerDay + offset) =
      (today - lastClaim) * msPerDay := by ring
  rw [this, Int.mul_ediv_cancel _ hne]

/-- In a zone without clock changes, claims on three consecutive days, the
first of them a first claim, bring the streak to 1, 2, 3 and grant 10 each. -/
theorem claim_three_days_fixedOffsetZone (offset : Int) (s : LedgerState) (D : Day)
    (h : s.lastClaimDate = none) :
    (claim (fixedOffsetZone offset) s D).1.currentStreak = 1 ∧
    (claim (fixedOffsetZone offset) s D).2 = ClaimOutcome.claimed 10 ∧
    (run (fixedOffsetZone offset) s [Op.claim D, Op.claim (D + 1)]).currentStreak = 2 ∧
    (claim (fixedOffsetZone offset) (run (fixedOffsetZone offset) s [Op.claim D]) (D + 1)).2 =
      ClaimOutcome.claimed 10 ∧
    (run (fixedOffsetZone offset) s
      [Op.claim D, Op.claim (D + 1), Op.claim (D + 2)]).currentStreak = 3 ∧
    (claim (fixedOffsetZone offset)
      (run (fixedOffsetZone offset) s [Op.claim D, Op.claim (D + 1)]) (D + 2)).2 =
      ClaimOutcome.claimed 10 := by
  have g1 : diffDays (fixedOffsetZone offset) D (D + 1) = 1 := by
    rw [diffDays_fixedOffsetZone]; ring
  have g2 : diffDays (fixedOffsetZone offset) (D + 1) (D + 2) = 1 := by
    rw [diffDays_fixedOffsetZone]; ring
  have d1 : D ≠ D + 1 := by
    intro hc
    have h0 : (0 : Int) = 1 := by linarith
    exact absurd h0 (by decide)
  have d2 : D + 1 ≠ D + 2 := by
    intro hc
    have h0 : (0 : Int) = 1 := by linarith
    exact absurd h0 (by decide)
  have n1 : (some D : Option Day) ≠ some (D + 1) := fun hc => d1 (Option.some.inj hc)
  have n2 : (some (D + 1) : Option Day) ≠ some (D + 2) := fun hc => d2 (Option.some.inj hc)
  have r1 : run (fixedOffsetZone offset) s [Op.claim D] = (claim (fixedOffsetZone offset) s D).1 :=
    rfl
  have r2 : run (fixedOffsetZone offset) s [Op.claim D, Op.claim (D + 1)] =
      (claim (fixedOffsetZone offset) (claim (fixedOffsetZone offset) s D).1 (D + 1)).1 := rfl
  have r3 : run (fixedOffsetZone offset) s [Op.claim D, Op.claim (D + 1), Op.claim (D + 2)] =
      (claim (fixedOffsetZone offset)
        (claim (fixedOffsetZone offset) (claim (fixedOffsetZone offset) s D).1 (D + 1)).1
        (D + 2)).1 := rfl
  have l1 := claim_lastClaimDate (fixedOffsetZone offset) s D
  have l2 := claim_lastClaimDate (fixedOffsetZone offset) (claim (fixedOffsetZone offset) s D).1
    (D + 1)
  obtain ⟨c1, o1⟩ := claim_first (fixedOffsetZone offset) s D h
  have c2 := claim_next (fixedOffsetZone offset) _ D (D + 1) l1 d1 g1
    (by rw [c1]; decide) (by rw [c1]; decide)
  rw [c1] at c2
  have c3 := claim_next (fixedOffsetZone offset) _ (D + 1) (D + 2) l2 d2 g2
    (by rw [c2]; decide) (by rw [c2]; decide)
  rw [c2] at c3
  rw [r1, r2, r3]
  refine ⟨c1, o1, c2, ?_, c3, ?_⟩
  · rw [claim_outcome _ _ _ (by rw [l1]; exact n1), getTotalReward_eq, c2]; rfl
  · rw [claim_outcome _ _ _ (by rw [l2]; exact n2), getTotalReward_eq, c3]; rfl

/-- C5 fails in New York over the clock change of Sun Mar 08 2026: first claims
on Sat Mar 07, Sun Mar 08 and Mon Mar 09 2026 (days 20519, 20520, 20521) leave
the streak at 1, 2 and then 1 again, each granting 10, because the Sunday
lasts 23 hours and `diffDays` from it to the Monday is 0. -/
theorem claim_three_days_newYork2026 :
    (run newYork2026 getDefaultData [Op.claim 20519]).currentStreak = 1 ∧
    (run newYork2026 getDefaultData [Op.claim 20519, Op.claim 20520]).currentStreak = 2 ∧
    (run newYork2026 getDefaultData
      [Op.claim 20519, Op.claim 20520, Op.claim 20521]).currentStreak = 1 ∧
    (claim newYork2026
      (run newYork2026 getDefaultData [Op.claim 20519, Op.claim 20520]) 20521).2 =
      ClaimOutcome.claimed 10 ∧
    newYork2026 20521 - newYork2026 20520 = 23 * 3600000 ∧
    diffDays newYork2026 20520 20521 = 0 := by
  decide

/-- The clock change of Sun Mar 08 2026 in New York, seen from `claim`. With a
ten-day streak last claimed on Sat Mar 07 (day 20519), a claim on Mon Mar 09
(day 20521) skips the Sunday and still extends the streak to 11, because the
two local midnights are 47 hours apart and `diffDays` is 1; and a claim on the
Monday after one on the Sunday resets the streak, as `claim_three_days_newYork2026`
shows. -/
theorem claim_two_days_newYork2026 :
    tenDayRecord.lastClaimDate = some 20519 ∧
    (20521 : Day) - 20519 = 2 ∧
    diffDays newYork2026 20519 20521 = 1 ∧
    (claim newYork2026 tenDayRecord 20521).1.currentStreak = 11 := by
  decide

/-- What `checkStreak` does, in terms of `diffDays`: nothing without a previous
claim or when `diffDays` is at most 1, and otherwise `currentStreak` becomes 0
while every other field stays. -/
theorem checkStreak_eq (zone : Zone) (s : LedgerState) (today : Day) :
    (s.lastClaimDate = none → checkStreak zone s today = s) ∧
    (∀ last, s.lastClaimDate = some last → diffDays zone last today ≤ 1 →
      checkStreak zone s today = s) ∧
    (∀ last, s.lastClaimDate = some last → diffDays zone last today > 1 →
      checkStreak zone s today = { s with currentStreak := 0 }) := by
  refine ⟨?_, ?_, ?_⟩
  · intro h; simp [checkStreak, h]
  · intro last h hgap
    have : ¬ diffDays zone last today > 1 := not_lt.mpr hgap
    simp [checkStreak, h, this]
  · intro last h hgap; simp [checkStreak, h, hgap]

/-- C6 fails in New York over the clock change of Sun Mar 08 2026: with a
ten-day streak last claimed on Sat Mar 07 (day 20519), `checkStreak` on
Mon Mar 09 (day 20521), two calendar days later, keeps the record as it is,
`currentStreak` 10 included, because the two local midnights are 47 hours
apart and `diffDays` is 1. -/
theorem checkStreak_two_days_newYork2026 :
    checkStreak newYork2026 tenDayRecord 20521 = tenDayRecord ∧
    (checkStreak newYork2026 tenDayRecord 20521).currentStreak = 10 ∧
    newYork2026 20521 - newYork2026 20519 = 47 * 3600000 ∧
    diffDays newYork2026 20519 20521 = 1 := by
  decide

/-! ### Wallet address -/

/-- C7, as amended: `saveAddress` succeeds exactly when the trimmed input is
non-empty, starts with `0x` and is 42 code units long; on success
`walletAddress` is the trimmed input, which is the input itself when trimming
removes nothing, and the other fields are kept; on failure the record is
unchanged. -/
theorem saveAddress_trimmed (s : LedgerState) (value : String) :
    ((saveAddress s value).2 = SaveOutcome.saved ↔
      (jsTrim value).data ≠ [] ∧ startsWith0x (jsTrim value) = true ∧
        jsLength (jsTrim value) = 42) ∧
    ((saveAddress s value).2 = SaveOutcome.saved →
      (saveAddress s value).1 = { s with walletAddress := jsTrim value }) ∧
    ((saveAddress s value).2 = SaveOutcome.saved → jsTrim value = value →
      (saveAddress s value).1 = { s with walletAddress := value }) ∧
    ((saveAddress s value).2 ≠ SaveOutcome.saved → (saveAddress s value).1 = s) := by
  unfold saveAddress
  simp only
  by_cases h1 : (jsTrim value).data = []
  · simp [h1]
  · by_cases h2 : startsWith0x (jsTrim value) = true
    · by_cases h3 : jsLength (jsTrim value) = 42
      · simp only [h1, h2, h3]
        simp
        exact h1
      · simp [h1, h2, h3]
    · simp [h1, h2]

/-- C7, as amended, at the well-formed address and at the inputs the claim
lists as failing: `0xabc`, the empty text, and 42 characters without `0x`. -/
theorem saveAddress_trimmed_witness :
    (saveAddress getDefaultData sampleAddress).2 = SaveOutcome.saved ∧
    jsTrim sampleAddress = sampleAddress ∧
    (saveAddress getDefaultData sampleAddress).1 =
      { getDefaultData with walletAddress := sampleAddress } ∧
    (saveAddress getDefaultData "0xabc").2 ≠ SaveOutcome.saved ∧
    (saveAddress getDefaultData "0xabc").1 = getDefaultData ∧
    (saveAddress getDefaultData "").2 ≠ SaveOutcome.saved ∧
    (saveAddress getDefaultData "").1 = getDefaultData ∧
    jsLength unprefixedAddress = 42 ∧
    (saveAddress getDefaultData unprefixedAddress).2 ≠ SaveOutcome.saved ∧
    (saveAddress getDefaultData unprefixedAddress).1 = getDefaultData :=
  ⟨by decide, by decide,
    (saveAddress_trimmed getDefaultData sampleAddress).2.2.1 (by decide) (by decide),
    by decide, (saveAddress_trimmed getDefaultData "0xabc").2.2.2 (by decide),
    by decide, (saveAddress_trimmed getDefaultData "").2.2.2 (by decide),
    by decide, by decide,
    (saveAddress_trimmed getDefaultData unprefixedAddress).2.2.2 (by decide)⟩

/-- C7 as stated fails in both directions and on the stored text. The padded
address does not begin with `0x` and is 43 characters long, yet it is accepted
and stored without its blank; the text with a trailing blank is non-empty,
begins with `0x` and is 42 characters long, yet it is refused. -/
theorem saveAddress_verbatim_counterexample :
    (saveAddress getDefaultData paddedAddress).2 = SaveOutcome.saved ∧
    startsWith0x paddedAddress = false ∧
    jsLength paddedAddress = 43 ∧
    (saveAddress getDefaultData paddedAddress).1.walletAddress ≠ paddedAddress ∧
    trailingBlankAddress.data ≠ [] ∧
    startsWith0x trailingBlankAddress = true ∧
    jsLength trailingBlankAddress = 42 ∧
    (saveAddress getDefaultData trailingBlankAddress).2 = SaveOutcome.invalidFormat := by
  decide

/-! ### One entry per day -/

theorem daysOrdered_default : DaysOrdered getDefaultData := by
  constructor
  · intro d hd; simp [getDefaultData] at hd
  · simp [getDefaultData]

theorem checkStreak_days (zone : Zone) (data : LedgerState) (today : Day) :
    (checkStreak zone data today).lastClaimDate = data.lastClaimDate ∧
    (checkStreak zone data today).claimedDays = data.claimedDays := by
  unfold checkStreak
  split
  · exact ⟨rfl, rfl⟩
  · split_ifs <;> exact ⟨rfl, rfl⟩

theorem saveAddress_days (data : LedgerState) (value : String) :
    (saveAddress data value).1.lastClaimDate = data.lastClaimDate ∧
    (saveAddress data value).1.claimedDays = data.claimedDays := by
  unfold saveAddress
  simp only
  split_ifs <;> exact ⟨rfl, rfl⟩

theorem daysOrdered_claim (zone : Zone) (data : LedgerState) (today : Day)
    (hinv : DaysOrdered data) (hclock : ∀ last, data.lastClaimDate = some last → last ≤ today) :
    DaysOrdered (claim zone data today).1 := by
  by_cases h : data.lastClaimDate = some today
  · rw [claim_of_eq zone data today h]; exact hinv
  · have hlast := claim_lastClaimDate zone data today
    have hdays : (claim zone data today).1.claimedDays = data.claimedDays ++ [today] := by
      rw [claim_of_ne zone data today h, recordClaim_claimedDays, (updateStreak_frame _ _ _).2.2.2.2.1]
    have hlt : ∀ d ∈ data.claimedDays, d < today := by
      intro d hd
      obtain ⟨last, hl, hle⟩ := hinv.1 d hd
      have h1 : last ≤ today := hclock last hl
      have h2 : last ≠ today := by
        intro hc; rw [hc] at hl; exact h hl
      exact lt_of_le_of_lt hle (lt_of_le_of_ne h1 h2)
    constructor
    · intro d hd
      rw [hdays, List.mem_append] at hd
      refine ⟨today, hlast, ?_⟩
      rcases hd with hd | hd
      · exact le_of_lt (hlt d hd)
      · rw [List.mem_singleton] at hd; rw [hd]
    · rw [hdays, List.pairwise_append]
      refine ⟨hinv.2, List.pairwise_singleton _ _, ?_⟩
      intro a ha b hb
      rw [List.mem_singleton] at hb
      rw [hb]; exact hlt a ha

theorem daysOrdered_run (zone : Zone) (ops : List Op) :
    ∀ data : LedgerState, DaysOrdered data →
      (∀ last, data.lastClaimDate = some last → ∀ t ∈ claimDaysOf ops, last ≤ t) →
      (claimDaysOf ops).Pairwise (fun a b => a ≤ b) →
      DaysOrdered (run zone data ops) := by
  induction ops with
  | nil => intro data hinv _ _; exact hinv
  | cons op ops ih =>
    intro data hinv hclock hsorted
    have hrun : run zone data (op :: ops) = run zone (step zone data op) ops := rfl
    rw [hrun]
    cases op with
    | claim today =>
      simp only [claimDaysOf, List.pairwise_cons] at hsorted
      apply ih
      · exact daysOrdered_claim zone data today hinv
          (fun last hl => hclock last hl today (by simp [claimDaysOf]))
      · intro last hl t ht
        have hl2 : (step zone data (Op.claim today)).lastClaimDate = some today :=
          claim_lastClaimDate zone data today
        rw [hl2] at hl
        rw [← Option.some.inj hl]
        exact hsorted.1 t ht
      · exact hsorted.2
    | share twitterBtn =>
      apply ih
      · exact hinv
      · intro last hl t ht; exact hclock last hl t ht
      · exact hsorted
    | saveAddress value =>
      have hd := saveAddress_days data value
      apply ih
      · constructor
        · intro d hd1
          simp only [step] at hd1 ⊢
          rw [hd.2] at hd1; rw [hd.1]; exact hinv.1 d hd1
        · simp only [step]; rw [hd.2]; exact hinv.2
      · intro last hl t ht
        simp only [step] at hl
        rw [hd.1] at hl; exact hclock last hl t ht
      · exact hsorted
    | checkStreak today =>
      have hd := checkStreak_days zone data today
      apply ih
      · constructor
        · intro d hd1
          simp only [step] at hd1 ⊢
          rw [hd.2] at hd1; rw [hd.1]; exact hinv.1 d hd1
        · simp only [step]; rw [hd.2]; exact hinv.2
      · intro last hl t ht
        simp only [step] at hl
        rw [hd.1] at hl; exact hclock last hl t ht
      · exact hsorted

/-- C9, as amended: in every record reached from the default one by claims,
shares, address updates and streak checks, `claimedDays` holds each day at most
once, provided the days of the successive claim calls never go backwards. -/
theorem claimedDays_nodup (zone : Zone) (ops : List Op)
    (hclock : (claimDaysOf ops).Pairwise (fun a b => a ≤ b)) :
    (run zone getDefaultData ops).claimedDays.Nodup := by
  have h := daysOrdered_run zone ops getDefaultData daysOrdered_default
    (fun last hl => by simp [getDefaultData] at hl) hclock
  exact h.2.imp (fun hab => ne_of_lt hab)

/-- C9, as amended, at two claims on day 20763 and one on day 20764, with a
share, an address update and a streak check in between. -/
theorem claimedDays_nodup_witness :
    (claimDaysOf [Op.claim 20763, Op.share true, Op.claim 20763, Op.saveAddress sampleAddress,
      Op.checkStreak 20764, Op.claim 20764]).Pairwise (fun a b => a ≤ b) ∧
    (run newYork2026 getDefaultData
      [Op.claim 20763, Op.share true, Op.claim 20763, Op.saveAddress sampleAddress,
        Op.checkStreak 20764, Op.claim 20764]).claimedDays.Nodup :=
  ⟨by decide, claimedDays_nodup newYork2026 _ (by decide)⟩

/-- C9 as stated fails: from the default record, claims on day 20763, then on
day 20764, then on day 20763 again (the clock set back one day) are all
accepted, and `claimedDays` holds day 20763 twice. -/
theorem claimedDays_nodup_counterexample :
    (run newYork2026 getDefaultData
      [Op.claim 20763, Op.claim 20764, Op.claim 20763]).claimedDays = [20763, 20764, 20763] ∧
    ¬ (run newYork2026 getDefaultData
      [Op.claim 20763, Op.claim 20764, Op.claim 20763]).claimedDays.Nodup := by
  decide

/-! ### Loading -/

/-- C10, as amended: `loadData` returns the default record when the key is
absent or holds the empty text; for every other stored text it returns what
`JSON.parse` returns, so an unparseable text makes `loadData` fail with the
error of `JSON.parse` and a parseable one yields the parsed value. -/
theorem loadData_eq {Value Error : Type} (parse : String → Except Error Value)
    (defaultData : Value) (stored : Option String) :
    (stored = none → loadData parse defaultData stored = Except.ok defaultData) ∧
    (stored = some "" → loadData parse defaultData stored = Except.ok defaultData) ∧
    (∀ saved, stored = some saved → saved ≠ "" →
      loadData parse defaultData stored = parse saved) ∧
    (∀ saved e, stored = some saved → saved ≠ "" → parse saved = Except.error e →
      loadData parse defaultData stored = Except.error e) := by
  have key : ∀ saved : String, saved ≠ "" → saved.data ≠ [] := by
    intro saved hne hdata
    apply hne
    cases saved
    simp only at hdata
    rw [hdata]
  refine ⟨?_, ?_, ?_, ?_⟩
  · intro h; rw [h]; rfl
  · intro h; rw [h]; rfl
  · intro saved h hne
    rw [h]; simp [loadData, key saved hne]
  · intro saved e h hne he
    rw [h]; simp [loadData, key saved hne, he]

/-- C10, as amended, with the JSON grammar as `JSON.parse`: an absent key gives
the default record, the truncated snapshot gives the error, and the snapshot of
the default record gives the default record. -/
theorem loadData_eq_witness :
    loadData jsonParse getDefaultDataJson none = Except.ok getDefaultDataJson ∧
    truncatedSnapshot ≠ "" ∧
    jsonParse truncatedSnapshot = Except.error SyntaxError.unexpectedToken ∧
    loadData jsonParse getDefaultDataJson (some truncatedSnapshot) =
      Except.error SyntaxError.unexpectedToken ∧
    loadData jsonParse getDefaultDataJson (some defaultSnapshot) =
      Except.ok getDefaultDataJson :=
  ⟨(loadData_eq jsonParse getDefaultDataJson none).1 rfl, by decide, rfl,
    (loadData_eq jsonParse getDefaultDataJson (some truncatedSnapshot)).2.2.2
      truncatedSnapshot SyntaxError.unexpectedToken rfl (by decide) rfl,
    rfl⟩

/-- C10 as stated fails: when the store holds the truncated snapshot,
`loadData` does not return the default record but fails with the
`SyntaxError` of `JSON.parse`. -/
theorem loadData_corrupt_counterexample :
    loadData jsonParse getDefaultDataJson (some truncatedSnapshot) =
      Except.error SyntaxError.unexpectedToken ∧
    loadData jsonParse getDefaultDataJson (some truncatedSnapshot) ≠
      Except.ok getDefaultDataJson :=
  ⟨rfl, fun h => Except.noConfusion h⟩

end SocialStableCoin
